import Mathlib

/-!
Shallow embedding of the Session/Ledger engine of `src/models.py`
(class `PhotoSession`) together with the configuration keys it reads
from `src/config.py`.

Modelling conventions:
* A filesystem path is its list of components (`Path := List String`);
  `project_folder / subfolder / filename` becomes
  `project_folder ++ [subfolder] ++ [filename]`.
* The disk is a finite association list from paths to image contents
  (`FS`); an image (`cv2` frame / jpg bytes) is abstracted to a `Nat`.
* The Excel ledger (`Session_Data.xlsx`) is the list of persisted rows,
  one `PhotoRecord` per row.
* Fallible external calls (`mkdir`, `cv2.imwrite`, `shutil.move`,
  `unlink`, the pandas Excel read/write, the crash-recovery json write)
  are driven by an environment record passed to each operation: `none`
  means the call succeeds, `some msg` means it raises an exception whose
  text is `msg`, exactly where the Python code catches one.
* `f"..."` decimal formatting of a counter is modelled by `decRepr`,
  a standard base-10 renderer.
-/

namespace PhotoLedger

/-- A filesystem path, as its list of components. -/
abbrev Path := List String

/-- Abstract image contents (a `cv2` frame / the bytes of a jpg). -/
abbrev Img := Nat

/-- The disk: a finite map from paths to image contents, as an
association list. -/
abbrev FS := List (Path × Img)

/-- Look a path up on the disk. -/
def FS.lookup : FS → Path → Option Img
  | [], _ => none
  | (q, v) :: rest, p => if q = p then some v else FS.lookup rest p

/-- `Path.exists()` of the Python code. -/
def FS.pexists (fs : FS) (p : Path) : Bool :=
  (fs.lookup p).isSome

/-- Drop every binding of path `p`. -/
def FS.remove : FS → Path → FS
  | [], _ => []
  | (q, v) :: rest, p => if q = p then FS.remove rest p else (q, v) :: FS.remove rest p

/-- `cv2.imwrite` / creating a file at `p` with contents `v`
(overwrites any previous file at `p`). -/
def FS.write (fs : FS) (p : Path) (v : Img) : FS :=
  (p, v) :: fs.remove p

/-- `shutil.move(src, dst)`: the file disappears from `src` and
reappears at `dst`. -/
def FS.move (fs : FS) (src dst : Path) : FS :=
  match fs.lookup src with
  | some v => (fs.remove src).write dst v
  | none => fs

/-- `Path.name`: the last component of a path. -/
def pathName (p : Path) : String :=
  p.getLastD ""

/-- Index of the last dot of a character list, if any. -/
def lastDotPos : List Char → Option Nat
  | [] => none
  | c :: rest =>
    match lastDotPos rest with
    | some i => some (i + 1)
    | none => if c = '.' then some 0 else none

/-- `pathlib` `Path.suffix` of a file name: the extension from the last
dot, provided that dot is neither the first nor the last character. -/
def pySuffix (s : String) : String :=
  match lastDotPos s.data with
  | some i => if 0 < i ∧ i + 1 < s.data.length then String.mk (s.data.drop i) else ""
  | none => ""

/-- `pathlib` `Path.stem` of a file name: the name with `pySuffix`
removed. -/
def pyStem (s : String) : String :=
  match lastDotPos s.data with
  | some i => if 0 < i ∧ i + 1 < s.data.length then String.mk (s.data.take i) else s
  | none => s

/-- Little-endian decimal digits of `n` as characters, with explicit
fuel (each step divides by 10, so fuel `n` suffices). -/
def decDigits : Nat → Nat → List Char
  | 0, _ => []
  | fuel + 1, n => if n = 0 then [] else Nat.digitChar (n % 10) :: decDigits fuel (n / 10)

/-- Decimal rendering of a natural number, as produced by the Python
f-string formatting of the duplicate / trash counters. -/
def decRepr (n : Nat) : String :=
  if n = 0 then "0" else String.mk (decDigits n n).reverse

/-- One photo record: an element of `self.photos` in `models.py`, and
equally one row of the Excel ledger (columns Timestamp, Subfolder,
Name, Filename, File Path). -/
structure PhotoRecord where
  timestamp : String
  subfolder : String
  name : String
  filename : String
  file_path : Path
deriving Repr, DecidableEq

/-- One entry of `self.deleted_photos` (the undo stack), as pushed by
`delete_photo` in models.py lines 244-249. -/
structure UndoEntry where
  original_path : Path
  trash_path : Path
  data : PhotoRecord
  index : Nat
deriving Repr, DecidableEq

/-- The crash-recovery breadcrumb written by `_save_active_session`
(models.py lines 382-389). -/
structure ActiveSession where
  project_folder : Path
  photo_count : Nat
  last_activity : String
deriving Repr, DecidableEq

/-- The three values of the `duplicate_handling` setting. -/
inductive DupPolicy
  | ask
  | auto_increment
  | replace
deriving Repr, DecidableEq

/-- The configuration keys `PhotoSession` reads through
`config.get_setting` (src/config.py default settings). -/
structure Config where
  duplicate_handling : DupPolicy
  use_trash : Bool
  undo_delete_limit : Nat
deriving Repr, DecidableEq

/-- The full session state: the in-memory fields of `PhotoSession`
plus the external stores it mutates (disk, Excel ledger, breadcrumb). -/
structure State where
  photos : List PhotoRecord
  deleted_photos : List UndoEntry
  project_folder : Path
  trash_folder : Path
  excel : List PhotoRecord
  fs : FS
  breadcrumb : Option ActiveSession
deriving Repr, DecidableEq

/-- Outcome of a pandas Excel write: success, `PermissionError`
(file locked), or any other exception with text. -/
inductive ExcelOutcome
  | ok
  | permission
  | otherExc (msg : String)
deriving Repr, DecidableEq

/-- Result of `_handle_duplicate_check` (models.py lines 129-149). -/
inductive DupResult
  | ask (path : Path)
  | new_path (path : Path)
  | replace (path : Path)
deriving Repr, DecidableEq

/-- The `while path.exists()` search loops of `_handle_duplicate_check`
and `_move_to_trash`: starting from candidate `path`, repeatedly step to
`cand k` (incrementing `k`) until a non-existing path is found. The
fuel is chosen as `fs.length + 1`, which is enough for the loop to exit
on a free candidate (proved below). -/
def findFree (fs : FS) (cand : Nat → Path) : Nat → Nat → Path → Path
  | _, 0, path => path
  | k, fuel + 1, path =>
    if FS.pexists fs path then findFree fs cand (k + 1) fuel (cand k) else path

/-- Candidate paths of the numbered-suffix form
`base / (pre ++ "_" ++ k ++ suf)` shared by both search loops. -/
def suffCand (base : Path) (pre suf : String) (k : Nat) : Path :=
  base ++ [pre ++ "_" ++ decRepr k ++ suf]

/-- `_handle_duplicate_check` (models.py lines 129-149): `auto_increment`
searches `name_2.jpg`, `name_3.jpg`, ... under `folder` for the first
free path, starting from the given `path`; `replace` and `ask` return
their tag. -/
def handle_duplicate_check (cfg : Config) (fs : FS) (path : Path) (name : String) (folder : Path) : DupResult :=
  match cfg.duplicate_handling with
  | .auto_increment => .new_path (findFree fs (suffCand folder name ".jpg") 2 (fs.length + 1) path)
  | .replace => .replace path
  | .ask => .ask path

/-- The trash destination chosen by `_move_to_trash` (models.py lines
275-281): the first free name in the flat trash folder — the original
name, then `stem_1suffix`, `stem_2suffix`, ... -/
def trashTarget (fs : FS) (trash : Path) (file_path : Path) : Path :=
  findFree fs (suffCand trash (pyStem (pathName file_path)) (pySuffix (pathName file_path)))
    1 (fs.length + 1) (trash ++ [pathName file_path])

/-- `_move_to_trash` (models.py lines 273-288): pick the first free name
in the flat trash folder, then `shutil.move`. On a move exception it
prints and returns `None`, leaving the disk unchanged. -/
def move_to_trash (fs : FS) (trash : Path) (file_path : Path) (exc : Option String) : Option Path × FS :=
  match exc with
  | none => (some (trashTarget fs trash file_path), fs.move file_path (trashTarget fs trash file_path))
  | some _ => (none, fs)

/-- `str(trash_path)` where `trash_path` may be `None`
(delete_photo stores `str(self._move_to_trash(file_path))` in the undo
entry): `str(None)` is the relative path `"None"`. -/
def trashPathStr : Option Path → Path
  | some p => p
  | none => ["None"]

/-- Result of `add_photo`. -/
inductive AddResult
  | error (message : String)
  | duplicate (name subfolder : String) (existing_path : Path) (frame : Img)
  | success (data : PhotoRecord) (save_error : Option String)
deriving Repr, DecidableEq

/-- Environment for one `add_photo` call: which external calls fail. -/
structure AddEnv where
  mkdir_exc : Option String
  trash_move_exc : Option String
  write_exc : Option String
  excel : ExcelOutcome
  crumb_exc : Option String
deriving Repr, DecidableEq

/-- `_append_to_excel` (models.py lines 151-168): read the ledger,
append one row, write back. Returns the save-error message (if any)
and the resulting ledger contents. -/
def append_to_excel (excel : List PhotoRecord) (pd : PhotoRecord) (o : ExcelOutcome) : Option String × List PhotoRecord :=
  match o with
  | .ok => (none, excel ++ [pd])
  | .permission => (some "Excel file is open. Please close it to save data.", excel)
  | .otherExc m => (some ("Error saving to Excel: " ++ m), excel)

/-- The duplicate-resolution step of `add_photo` (models.py lines
74-96): compute the target path; if it exists, apply the duplicate
policy. `none` signals the `ask` outcome (abort and return a duplicate
result); otherwise the resolved path, filename and the disk state after
a possible replace-to-trash move are returned. -/
def addStep (cfg : Config) (st : State) (subfolder nm : String) (e : AddEnv) : Option (Path × String × FS) :=
  if FS.pexists st.fs (st.project_folder ++ [subfolder] ++ [nm ++ ".jpg"]) then
    match handle_duplicate_check cfg st.fs (st.project_folder ++ [subfolder] ++ [nm ++ ".jpg"]) nm
        (st.project_folder ++ [subfolder]) with
    | .ask _ => none
    | .new_path p => some (p, pathName p, st.fs)
    | .replace _ =>
      some (st.project_folder ++ [subfolder] ++ [nm ++ ".jpg"], nm ++ ".jpg",
        (move_to_trash st.fs st.trash_folder (st.project_folder ++ [subfolder] ++ [nm ++ ".jpg"]) e.trash_move_exc).2)
  else some (st.project_folder ++ [subfolder] ++ [nm ++ ".jpg"], nm ++ ".jpg", st.fs)

/-- `add_photo` (models.py lines 60-127). `ts` is `datetime.now()`
formatted. -/
def add_photo (cfg : Config) (st : State) (subfolder nm : String) (frame : Img) (ts : String) (e : AddEnv) : AddResult × State :=
  match e.mkdir_exc with
  | some m => (.error ("Cannot create subfolder: " ++ m), st)
  | none =>
    match addStep cfg st subfolder nm e with
    | none => (.duplicate nm subfolder (st.project_folder ++ [subfolder] ++ [nm ++ ".jpg"]) frame, st)
    | some (file_path, filename, fs1) =>
      match e.write_exc with
      | some m => (.error ("Cannot save photo: " ++ m), { st with fs := fs1 })
      | none =>
        let photo_data : PhotoRecord :=
          { timestamp := ts, subfolder := subfolder, name := nm,
            filename := filename, file_path := file_path }
        let photos' := st.photos ++ [photo_data]
        let crumb' : Option ActiveSession :=
          match e.crumb_exc with
          | none => some { project_folder := st.project_folder, photo_count := photos'.length, last_activity := ts }
          | some _ => st.breadcrumb
        (.success photo_data (append_to_excel st.excel photo_data e.excel).1,
         { st with fs := fs1.write file_path frame, photos := photos',
                   excel := (append_to_excel st.excel photo_data e.excel).2, breadcrumb := crumb' })

/-- The save-error message attached to an add result, by Excel outcome
(models.py lines 158-168). -/
def saveError : ExcelOutcome → Option String
  | .ok => none
  | .permission => some "Excel file is open. Please close it to save data."
  | .otherExc m => some ("Error saving to Excel: " ++ m)

/-- Result of `update_photo`. -/
inductive UpdResult
  | error (message : String)
  | duplicate (existing_path : Path)
  | success (data : PhotoRecord)
deriving Repr, DecidableEq

/-- Environment for one `update_photo` call. -/
structure UpdEnv where
  mkdir_exc : Option String
  trash_move_exc : Option String
  move_exc : Option String
  rewrite_exc : Option String
deriving Repr, DecidableEq

/-- Tail of `update_photo` (models.py lines 215-224): update the record
fields in place and rewrite the ledger (`_rewrite_excel`, which on an
exception prints and leaves the file as is). -/
def updApply (st : State) (index : Nat) (old_data : PhotoRecord) (new_subfolder new_name new_filename : String) (new_path : Path) (e : UpdEnv) : UpdResult × State :=
  let newRec := { old_data with subfolder := new_subfolder, name := new_name,
                                filename := new_filename, file_path := new_path }
  let photos' := st.photos.set index newRec
  (.success newRec,
   { st with photos := photos',
             excel := if e.rewrite_exc = none then photos' else st.excel })

/-- `update_photo` (models.py lines 170-224). -/
def update_photo (cfg : Config) (st : State) (index : Nat) (new_subfolder new_name : String) (e : UpdEnv) : UpdResult × State :=
  match st.photos[index]? with
  | none => (.error "Invalid photo index", st)
  | some old_data =>
    if FS.pexists st.fs old_data.file_path then
      match e.mkdir_exc with
      | some m => (.error ("Cannot create subfolder: " ++ m), st)
      | none =>
        let new_subfolder_path := st.project_folder ++ [new_subfolder]
        let new_filename := new_name ++ ".jpg"
        let new_path := new_subfolder_path ++ [new_filename]
        if old_data.file_path = new_path then
          updApply st index old_data new_subfolder new_name new_filename new_path e
        else
          let resolved : Option (Path × String × FS) :=
            if FS.pexists st.fs new_path then
              match handle_duplicate_check cfg st.fs new_path new_name new_subfolder_path with
              | .ask _ => none
              | .new_path p => some (p, pathName p, st.fs)
              | .replace _ => some (new_path, new_filename, (move_to_trash st.fs st.trash_folder new_path e.trash_move_exc).2)
            else some (new_path, new_filename, st.fs)
          match resolved with
          | none => (.duplicate new_path, st)
          | some (np, nf, fs1) =>
            match e.move_exc with
            | some m => (.error ("Cannot move file: " ++ m), { st with fs := fs1 })
            | none =>
              updApply { st with fs := fs1.move old_data.file_path np } index old_data new_subfolder new_name nf np e
    else (.error "Photo file not found", st)

/-- Result of `delete_photo`. -/
inductive DelResult
  | error (message : String)
  | success (deleted : PhotoRecord)
deriving Repr, DecidableEq

/-- Environment for one `delete_photo` call. -/
structure DelEnv where
  trash_move_exc : Option String
  unlink_exc : Option String
  rewrite_exc : Option String
deriving Repr, DecidableEq

/-- Tail of `delete_photo` (models.py lines 265-271): remove the record
at `index` and rewrite the ledger. -/
def delFinish (st : State) (index : Nat) (photo : PhotoRecord) (e : DelEnv) : DelResult × State :=
  let photos' := st.photos.eraseIdx index
  (.success photo,
   { st with photos := photos',
             excel := if e.rewrite_exc = none then photos' else st.excel })

/-- Trash branch of `delete_photo` (models.py lines 238-257): move the
file to trash, push the undo entry, and if the stack now exceeds the
configured limit, evict the oldest entry and permanently delete its
trashed file. -/
def delTrashBranch (cfg : Config) (st : State) (index : Nat) (photo : PhotoRecord) (e : DelEnv) : DelResult × State :=
  let mt := move_to_trash st.fs st.trash_folder photo.file_path e.trash_move_exc
  let entry : UndoEntry :=
    { original_path := photo.file_path, trash_path := trashPathStr mt.1,
      data := photo, index := index }
  let dp1 := st.deleted_photos ++ [entry]
  if dp1.length > cfg.undo_delete_limit then
    match dp1 with
    | [] => delFinish { st with fs := mt.2, deleted_photos := dp1 } index photo e
    | oldest :: rest =>
      delFinish
        { st with deleted_photos := rest,
                  fs := if FS.pexists mt.2 oldest.trash_path then FS.remove mt.2 oldest.trash_path else mt.2 }
        index photo e
  else delFinish { st with fs := mt.2, deleted_photos := dp1 } index photo e

/-- `delete_photo` (models.py lines 226-271). -/
def delete_photo (cfg : Config) (st : State) (index : Nat) (e : DelEnv) : DelResult × State :=
  match st.photos[index]? with
  | none => (.error "Invalid photo index", st)
  | some photo =>
    if FS.pexists st.fs photo.file_path then
      if cfg.use_trash then
        delTrashBranch cfg st index photo e
      else
        match e.unlink_exc with
        | some m => (.error ("Cannot delete file: " ++ m), st)
        | none => delFinish { st with fs := st.fs.remove photo.file_path } index photo e
    else delFinish st index photo e

/-- Result of `undo_delete`. -/
inductive UndoResult
  | error (message : String)
  | success (restored : PhotoRecord)
deriving Repr, DecidableEq

/-- Environment for one `undo_delete` call (`restore_exc` covers the
single try block around `mkdir(parents=True)` plus `shutil.move`). -/
structure UndoEnv where
  restore_exc : Option String
  rewrite_exc : Option String
deriving Repr, DecidableEq

/-- Python `list.insert(i, x)`: out-of-range indices clamp to the end. -/
def pyInsert (l : List α) (i : Nat) (a : α) : List α :=
  l.insertIdx (min i l.length) a

/-- `undo_delete` (models.py lines 290-318). Note that the entry is
popped from the stack before the trash file is checked, and is not
pushed back on failure. -/
def undo_delete (st : State) (e : UndoEnv) : UndoResult × State :=
  match st.deleted_photos.getLast? with
  | none => (.error "No deletions to undo", st)
  | some deleted =>
    let dp' := st.deleted_photos.dropLast
    if FS.pexists st.fs deleted.trash_path then
      match e.restore_exc with
      | some m => (.error ("Cannot restore file: " ++ m), { st with deleted_photos := dp' })
      | none =>
        let fs' := st.fs.move deleted.trash_path deleted.original_path
        let photos' := pyInsert st.photos deleted.index deleted.data
        (.success deleted.data,
         { st with deleted_photos := dp', fs := fs', photos := photos',
                   excel := if e.rewrite_exc = none then photos' else st.excel })
    else (.error "Deleted file not found in trash", { st with deleted_photos := dp' })

/-- `get_photo_by_index` (models.py lines 401-405): the Python index is
an arbitrary integer; the guard `0 <= index < len(self.photos)` selects
the record, everything else yields `None`. -/
def get_photo_by_index (st : State) (index : Int) : Option PhotoRecord :=
  if 0 ≤ index ∧ index < (st.photos.length : Int) then st.photos[index.toNat]? else none

/-! Proof infrastructure: decoding decimal digit strings, and the list
of candidates examined by a `findFree` search. -/

/-- Numeric value of a decimal digit character. -/
def undigit (c : Char) : Nat :=
  c.toNat - 48

/-- Value of a little-endian list of decimal digit characters. -/
def decVal : List Char → Nat
  | [] => 0
  | c :: rest => undigit c + 10 * decVal rest

/-- The list of candidate paths a `findFree` call examines, in order. -/
def candChain (cand : Nat → Path) : Nat → Nat → Path → List Path
  | _, 0, _ => []
  | k, fuel + 1, path => path :: candChain cand (k + 1) fuel (cand k)

/-! Concrete fixtures used by witnesses and counterexamples. -/

/-- All-successful environment for `add_photo`. -/
def okAdd : AddEnv :=
  { mkdir_exc := none, trash_move_exc := none, write_exc := none,
    excel := .ok, crumb_exc := none }

/-- All-successful environment for `delete_photo`. -/
def okDel : DelEnv :=
  { trash_move_exc := none, unlink_exc := none, rewrite_exc := none }

/-- All-successful environment for `undo_delete`. -/
def okUndo : UndoEnv :=
  { restore_exc := none, rewrite_exc := none }

/-- A configuration with a given duplicate policy, trash enabled and the
default undo limit of 10. -/
def cfgWith (p : DupPolicy) : Config :=
  { duplicate_handling := p, use_trash := true, undo_delete_limit := 10 }

/-- A session with no photos, no undo entries, an empty ledger and an
empty disk, over the given project and trash folders. -/
def emptySession (pf tf : Path) : State :=
  { photos := [], deleted_photos := [], project_folder := pf,
    trash_folder := tf, excel := [], fs := [], breadcrumb := none }

/-- A fresh session on project folder `P` with trash folder `T`. -/
def freshState : State :=
  emptySession ["P"] ["T"]

/-- A sample record living at `P/HR/John.jpg`. -/
def demoRecord : PhotoRecord :=
  { timestamp := "t0", subfolder := "HR", name := "John",
    filename := "John.jpg", file_path := ["P", "HR", "John.jpg"] }

/-- A one-photo session whose photo file exists on disk. -/
def demoState : State :=
  { photos := [demoRecord], deleted_photos := [], project_folder := ["P"],
    trash_folder := ["T"], excel := [demoRecord], fs := [(["P", "HR", "John.jpg"], 7)],
    breadcrumb := none }

/-- An undo entry pointing at a trash file that is not on the disk of
`demoState`. -/
def demoEntry : UndoEntry :=
  { original_path := ["P", "HR", "John.jpg"], trash_path := ["T", "John.jpg"],
    data := demoRecord, index := 0 }

/-- A trash-enabled configuration whose undo limit is zero. -/
def cfgZero : Config :=
  { duplicate_handling := .ask, use_trash := true, undo_delete_limit := 0 }

/-- A sequence of `delete_photo` calls (index and environment per
call), applied left to right, keeping the final state. -/
def runDeletes (cfg : Config) : State → List (Nat × DelEnv) → State
  | st, [] => st
  | st, (i, e) :: rest => runDeletes cfg (delete_photo cfg st i e).2 rest

/-- A sequence of `undo_delete` calls, applied left to right. -/
def runUndos : State → List UndoEnv → State
  | st, [] => st
  | st, e :: rest => runUndos (undo_delete st e).2 rest

/-! ### String and decimal-rendering lemmas -/

theorem strMk_inj {a b : List Char} (h : String.mk a = String.mk b) : a = b := by
  injection h

theorem strData_append (a b : String) : (a ++ b).data = a.data ++ b.data := by
  cases a; cases b; rfl

theorem str_ext {a b : String} (h : a.data = b.data) : a = b := by
  cases a; cases b; exact congrArg String.mk h

theorem undigit_digitChar : ∀ d, d < 10 → undigit (Nat.digitChar d) = d := by decide

theorem decVal_decDigits : ∀ fuel n, n ≤ fuel → decVal (decDigits fuel n) = n := by
  intro fuel
  induction fuel with
  | zero =>
    intro n h
    have hn : n = 0 := by omega
    subst hn; rfl
  | succ f ih =>
    intro n h
    by_cases hn : n = 0
    · subst hn; simp [decDigits, decVal]
    · have h10 : n / 10 ≤ f := by
        have := Nat.div_lt_self (Nat.pos_of_ne_zero hn) (by omega : 1 < 10)
        omega
      simp only [decDigits, if_neg hn, decVal]
      rw [ih _ h10, undigit_digitChar _ (Nat.mod_lt n (by omega))]
      exact Nat.mod_add_div n 10

theorem decRepr_val : ∀ n : Nat, decVal (decRepr n).data.reverse = n := by
  intro n
  by_cases hn : n = 0
  · subst hn; rfl
  · unfold decRepr
    rw [if_neg hn]
    show decVal (decDigits n n).reverse.reverse = n
    rw [List.reverse_reverse]
    exact decVal_decDigits n n (le_refl n)

theorem decRepr_inj {a b : Nat} (h : decRepr a = decRepr b) : a = b := by
  have ha := decRepr_val a
  rw [h, decRepr_val] at ha
  omega

/-! ### Filesystem-model lemmas -/

theorem FS.lookup_remove_self (fs : FS) (p : Path) : (fs.remove p).lookup p = none := by
  induction fs with
  | nil => rfl
  | cons e rest ih =>
    obtain ⟨q, v⟩ := e
    by_cases hq : q = p
    · simpa [FS.remove, hq] using ih
    · simpa [FS.remove, FS.lookup, hq] using ih

theorem FS.lookup_remove_other (fs : FS) (p q : Path) (h : q ≠ p) :
    (fs.remove p).lookup q = fs.lookup q := by
  induction fs with
  | nil => rfl
  | cons e rest ih =>
    obtain ⟨r, v⟩ := e
    by_cases hr : r = p
    · subst hr
      simp [FS.remove, FS.lookup, Ne.symm h, ih]
    · by_cases hrq : r = q
      · subst hrq
        simp [FS.remove, FS.lookup, hr]
      · simp [FS.remove, FS.lookup, hr, hrq, ih]

theorem FS.lookup_write_self (fs : FS) (p : Path) (v : Img) :
    (fs.write p v).lookup p = some v := by
  simp [FS.write, FS.lookup]

theorem FS.lookup_write_other (fs : FS) (p q : Path) (v : Img) (h : q ≠ p) :
    (fs.write p v).lookup q = fs.lookup q := by
  have : p ≠ q := fun hc => h hc.symm
  simp [FS.write, FS.lookup, this, FS.lookup_remove_other fs p q h]

theorem FS.pexists_mem_keys (fs : FS) (q : Path) (h : FS.pexists fs q = true) :
    q ∈ fs.map Prod.fst := by
  induction fs with
  | nil => simp [FS.pexists, FS.lookup] at h
  | cons e rest ih =>
    obtain ⟨r, v⟩ := e
    by_cases hr : r = q
    · simp [hr]
    · simp only [FS.pexists, FS.lookup, if_neg hr] at h
      simpa using Or.inr (ih h)

theorem nodup_pexists_length_le (fs : FS) (l : List Path) (hn : l.Nodup)
    (h : ∀ q ∈ l, FS.pexists fs q = true) : l.length ≤ fs.length := by
  have hs : l ⊆ fs.map Prod.fst := fun q hq => FS.pexists_mem_keys fs q (h q hq)
  have := (hn.subperm hs).length_le
  simpa using this

/-! ### The candidate-search loop finds a fresh path -/

theorem candChain_length (cand : Nat → Path) :
    ∀ fuel k path, (candChain cand k fuel path).length = fuel := by
  intro fuel
  induction fuel with
  | zero => intro k path; rfl
  | succ f ih => intro k path; simp [candChain, ih]

theorem mem_candChain (cand : Nat → Path) :
    ∀ fuel k path q, q ∈ candChain cand k fuel path → q = path ∨ ∃ j, k ≤ j ∧ q = cand j := by
  intro fuel
  induction fuel with
  | zero => intro k path q hq; simp [candChain] at hq
  | succ f ih =>
    intro k path q hq
    simp only [candChain, List.mem_cons] at hq
    rcases hq with rfl | hq
    · exact Or.inl rfl
    · rcases ih (k + 1) (cand k) q hq with rfl | ⟨j, hj, rfl⟩
      · exact Or.inr ⟨k, le_refl k, rfl⟩
      · exact Or.inr ⟨j, by omega, rfl⟩

theorem nodup_candChain (cand : Nat → Path) (hinj : ∀ i j, cand i = cand j → i = j) :
    ∀ fuel k path, (∀ j, k ≤ j → path ≠ cand j) → (candChain cand k fuel path).Nodup := by
  intro fuel
  induction fuel with
  | zero => intro k path _; simp [candChain]
  | succ f ih =>
    intro k path hpc
    rw [candChain, List.nodup_cons]
    constructor
    · intro hmem
      rcases mem_candChain cand f (k + 1) (cand k) path hmem with heq | ⟨j, hj, heq⟩
      · exact hpc k (le_refl k) heq
      · exact hpc j (by omega) heq
    · exact ih (k + 1) (cand k) (fun j hj hc => by have := hinj k j hc; omega)

theorem findFree_or (fs : FS) (cand : Nat → Path) :
    ∀ fuel k path, FS.pexists fs (findFree fs cand k fuel path) = false ∨
      ∀ q ∈ candChain cand k fuel path, FS.pexists fs q = true := by
  intro fuel
  induction fuel with
  | zero => intro k path; right; intro q hq; simp [candChain] at hq
  | succ f ih =>
    intro k path
    cases hp : FS.pexists fs path with
    | false => left; simp [findFree, hp]
    | true =>
      rcases ih (k + 1) (cand k) with h | h
      · left; simpa [findFree, hp] using h
      · right
        intro q hq
        simp only [candChain, List.mem_cons] at hq
        rcases hq with rfl | hq
        · exact hp
        · exact h q hq

theorem findFree_free (fs : FS) (cand : Nat → Path) (k : Nat) (path : Path)
    (hpc : ∀ j, k ≤ j → path ≠ cand j) (hinj : ∀ i j, cand i = cand j → i = j) :
    FS.pexists fs (findFree fs cand k (fs.length + 1) path) = false := by
  rcases findFree_or fs cand (fs.length + 1) k path with h | h
  · exact h
  · exfalso
    have hn := nodup_candChain cand hinj (fs.length + 1) k path hpc
    have hl := nodup_pexists_length_le fs _ hn h
    rw [candChain_length] at hl
    omega

theorem findFree_min (fs : FS) (cand : Nat → Path) :
    ∀ fuel k path, FS.pexists fs (findFree fs cand k fuel path) = false →
      (FS.pexists fs path = false ∧ findFree fs cand k fuel path = path) ∨
      (FS.pexists fs path = true ∧ ∃ j, k ≤ j ∧ findFree fs cand k fuel path = cand j ∧
        FS.pexists fs (cand j) = false ∧ ∀ m, k ≤ m → m < j → FS.pexists fs (cand m) = true) := by
  intro fuel
  induction fuel with
  | zero =>
    intro k path h
    exact Or.inl ⟨h, rfl⟩
  | succ f ih =>
    intro k path h
    cases hp : FS.pexists fs path with
    | false =>
      left
      refine ⟨rfl, ?_⟩
      simp [findFree, hp]
    | true =>
      right
      refine ⟨rfl, ?_⟩
      rw [findFree, if_pos hp] at h ⊢
      rcases ih (k + 1) (cand k) h with ⟨hfree, heq⟩ | ⟨hex, j, hj, heq, hfree, hall⟩
      · exact ⟨k, le_refl k, heq, heq ▸ h, fun m h1 h2 => by omega⟩
      · refine ⟨j, by omega, heq, hfree, ?_⟩
        intro m h1 h2
        by_cases hm : m = k
        · subst hm; exact hex
        · exact hall m (by omega) h2

/-! ### The two numbered-suffix candidate families -/

theorem suffCand_inj (base : Path) (pre suf : String) (i j : Nat)
    (h : suffCand base pre suf i = suffCand base pre suf j) : i = j := by
  unfold suffCand at h
  have h1 : pre ++ "_" ++ decRepr i ++ suf = pre ++ "_" ++ decRepr j ++ suf := by
    simpa using List.append_cancel_left h
  have hd := congrArg String.data h1
  simp only [strData_append, List.append_assoc] at hd
  have h4 := List.append_cancel_left hd
  have h5 := List.append_cancel_left h4
  exact decRepr_inj (str_ext (List.append_cancel_right h5))

theorem ne_suffCand (base : Path) (pre suf : String) (j : Nat) :
    base ++ [pre ++ suf] ≠ suffCand base pre suf j := by
  intro h
  unfold suffCand at h
  have h1 : pre ++ suf = pre ++ "_" ++ decRepr j ++ suf := by
    simpa using List.append_cancel_left h
  have h3 := congrArg (fun s => s.data.length) h1
  simp only [strData_append, List.length_append, List.append_assoc] at h3
  have hu : ("_" : String).data.length = 1 := rfl
  rw [hu] at h3
  omega

theorem pyStem_append_pySuffix (s : String) : pyStem s ++ pySuffix s = s := by
  cases h : lastDotPos s.data with
  | none =>
    simp only [pyStem, pySuffix, h]
    apply str_ext
    rw [strData_append]
    simp
  | some i =>
    simp only [pyStem, pySuffix, h]
    by_cases hc : 0 < i ∧ i + 1 < s.data.length
    · rw [if_pos hc, if_pos hc]
      apply str_ext
      rw [strData_append]
      show s.data.take i ++ s.data.drop i = s.data
      exact List.take_append_drop i s.data
    · rw [if_neg hc, if_neg hc]
      apply str_ext
      rw [strData_append]
      simp

theorem trashTarget_free (fs : FS) (trash fp : Path) :
    FS.pexists fs (trashTarget fs trash fp) = false := by
  unfold trashTarget
  apply findFree_free
  · intro j _ hcon
    have hne := ne_suffCand trash (pyStem (pathName fp)) (pySuffix (pathName fp)) j
    rw [pyStem_append_pySuffix] at hne
    exact hne hcon
  · exact fun i j h => suffCand_inj _ _ _ i j h

/-- `_handle_duplicate_check` under `auto_increment`, when the target
`folder/name.jpg` exists, resolves to `folder/name_k.jpg` for the least
free `k ≥ 2`. -/
theorem autoInc_spec (cfg : Config) (fs : FS) (folder : Path) (nm : String)
    (hpol : cfg.duplicate_handling = .auto_increment)
    (hex : FS.pexists fs (folder ++ [nm ++ ".jpg"]) = true) :
    ∃ k, 2 ≤ k ∧
      handle_duplicate_check cfg fs (folder ++ [nm ++ ".jpg"]) nm folder =
        .new_path (suffCand folder nm ".jpg" k) ∧
      FS.pexists fs (suffCand folder nm ".jpg" k) = false ∧
      ∀ m, 2 ≤ m → m < k → FS.pexists fs (suffCand folder nm ".jpg" m) = true := by
  have hfree := findFree_free fs (suffCand folder nm ".jpg") 2 (folder ++ [nm ++ ".jpg"])
    (fun j _ h => ne_suffCand folder nm ".jpg" j h)
    (fun i j h => suffCand_inj folder nm ".jpg" i j h)
  rcases findFree_min fs _ (fs.length + 1) 2 _ hfree with ⟨hf, _⟩ | ⟨_, j, hj, heq, hfr, hall⟩
  · rw [hex] at hf; cases hf
  · refine ⟨j, hj, ?_, hfr, hall⟩
    simp only [handle_duplicate_check, hpol, heq]

/-! ### Miscellaneous list lemmas -/

theorem pathName_concat (p : Path) (a : String) : pathName (p ++ [a]) = a := by
  simp [pathName]

theorem insertIdx_eraseIdx_self {α : Type} :
    ∀ (l : List α) (i : Nat) (a : α), l[i]? = some a → (l.eraseIdx i).insertIdx i a = l := by
  intro l
  induction l with
  | nil => intro i a h; simp at h
  | cons x t ih =>
    intro i a h
    cases i with
    | zero =>
      simp only [List.getElem?_cons_zero, Option.some.injEq] at h
      subst h
      rfl
    | succ n =>
      simp only [List.getElem?_cons_succ] at h
      simp only [List.eraseIdx, List.insertIdx_succ_cons]
      rw [ih n a h]

theorem pyInsert_eraseIdx {α : Type} (l : List α) (i : Nat) (a : α) (h : l[i]? = some a) :
    pyInsert (l.eraseIdx i) i a = l := by
  have hi : i < l.length := by
    by_contra hc
    rw [List.getElem?_eq_none (by omega)] at h
    cases h
  have hl : (l.eraseIdx i).length = l.length - 1 := by
    simp [List.length_eraseIdx, hi]
  unfold pyInsert
  rw [hl]
  have hm : min i (l.length - 1) = i := by omega
  rw [hm]
  exact insertIdx_eraseIdx_self l i a h

/-! ### Filesystem existence after write / remove / move -/

theorem FS.pexists_write_self (fs : FS) (p : Path) (v : Img) :
    (fs.write p v).pexists p = true := by
  simp [FS.pexists, FS.lookup_write_self]

theorem FS.pexists_write_other (fs : FS) (p q : Path) (v : Img) (h : q ≠ p) :
    (fs.write p v).pexists q = fs.pexists q := by
  simp [FS.pexists, FS.lookup_write_other fs p q v h]

theorem FS.pexists_remove_self (fs : FS) (p : Path) :
    (fs.remove p).pexists p = false := by
  simp [FS.pexists, FS.lookup_remove_self]

theorem FS.pexists_remove_other (fs : FS) (p q : Path) (h : q ≠ p) :
    (fs.remove p).pexists q = fs.pexists q := by
  simp [FS.pexists, FS.lookup_remove_other fs p q h]

theorem FS.move_eq_of_lookup (fs : FS) (src dst : Path) (v : Img)
    (h : fs.lookup src = some v) : fs.move src dst = (fs.remove src).write dst v := by
  unfold FS.move
  rw [h]

theorem FS.pexists_some (fs : FS) (p : Path) (h : FS.pexists fs p = true) :
    ∃ v, fs.lookup p = some v := by
  unfold FS.pexists at h
  cases hl : fs.lookup p with
  | none => rw [hl] at h; cases h
  | some v => exact ⟨v, rfl⟩

/-! ### Claim C10 -/

/-- Claim C10: `get_photo_by_index i` is total over all integers — it
returns the record at position `i` whenever `0 ≤ i <` photo count, and
`none` for every other integer, never raising. Totality is the type of
the Lean embedding itself; this theorem checks the two cases. -/
theorem C10_get_photo_by_index_total (st : State) (i : Int) :
    (0 ≤ i → i < (st.photos.length : Int) →
      ∃ r, get_photo_by_index st i = some r ∧ st.photos[i.toNat]? = some r) ∧
    (¬(0 ≤ i ∧ i < (st.photos.length : Int)) → get_photo_by_index st i = none) := by
  constructor
  · intro h1 h2
    have hn : i.toNat < st.photos.length := by omega
    refine ⟨st.photos[i.toNat], ?_, ?_⟩
    · simp [get_photo_by_index, h1, h2, List.getElem?_eq_getElem hn]
    · simp [List.getElem?_eq_getElem hn]
  · intro h
    simp only [get_photo_by_index, if_neg h]

/-- Witness for C10 at a concrete one-photo session and index 0. -/
theorem C10_witness :
    ∃ r, get_photo_by_index demoState 0 = some r ∧ demoState.photos[(0 : Int).toNat]? = some r :=
  (C10_get_photo_by_index_total demoState 0).1 (by decide) (by decide)

/-! ### Claim C9 -/

/-- Claim C9: for an in-bounds index whose record file is missing on
disk, `delete_photo` still succeeds, removes the record, rewrites the
ledger, but pushes no undo entry (the undo stack is unchanged), so the
deletion cannot be reversed by `undo_delete`. -/
theorem C9_delete_missing_file (cfg : Config) (st : State) (i : Nat) (e : DelEnv)
    (photo : PhotoRecord) (hph : st.photos[i]? = some photo)
    (hmiss : FS.pexists st.fs photo.file_path = false) :
    (delete_photo cfg st i e).1 = .success photo ∧
    (delete_photo cfg st i e).2.photos = st.photos.eraseIdx i ∧
    (delete_photo cfg st i e).2.deleted_photos = st.deleted_photos ∧
    (delete_photo cfg st i e).2.fs = st.fs ∧
    (e.rewrite_exc = none → (delete_photo cfg st i e).2.excel = st.photos.eraseIdx i) := by
  simp only [delete_photo, hph, hmiss, Bool.false_eq_true, if_false, delFinish]
  refine ⟨trivial, trivial, trivial, trivial, ?_⟩
  intro h
  simp [h]

/-- Witness for C9: deleting index 0 of a session whose only photo file
is absent from the disk. -/
theorem C9_witness :
    (delete_photo (cfgWith .ask) { demoState with fs := [] } 0 okDel).1 = .success demoRecord ∧
    (delete_photo (cfgWith .ask) { demoState with fs := [] } 0 okDel).2.photos =
      ({ demoState with fs := [] } : State).photos.eraseIdx 0 ∧
    (delete_photo (cfgWith .ask) { demoState with fs := [] } 0 okDel).2.deleted_photos =
      ({ demoState with fs := [] } : State).deleted_photos ∧
    (delete_photo (cfgWith .ask) { demoState with fs := [] } 0 okDel).2.fs =
      ({ demoState with fs := [] } : State).fs ∧
    (okDel.rewrite_exc = none →
      (delete_photo (cfgWith .ask) { demoState with fs := [] } 0 okDel).2.excel =
        ({ demoState with fs := [] } : State).photos.eraseIdx 0) :=
  C9_delete_missing_file (cfgWith .ask) { demoState with fs := [] } 0 okDel demoRecord
    (by decide) (by decide)

/-! ### add_photo characterization lemmas -/

theorem append_to_excel_fst (ex : List PhotoRecord) (pd : PhotoRecord) (o : ExcelOutcome) :
    (append_to_excel ex pd o).1 = saveError o := by
  cases o <;> rfl

theorem append_to_excel_snd (ex : List PhotoRecord) (pd : PhotoRecord) (o : ExcelOutcome)
    (h : o ≠ .ok) : (append_to_excel ex pd o).2 = ex := by
  cases o with
  | ok => exact absurd rfl h
  | permission => rfl
  | otherExc m => rfl

theorem saveError_ne_none (o : ExcelOutcome) (h : o ≠ .ok) : saveError o ≠ none := by
  cases o with
  | ok => exact absurd rfl h
  | permission => simp [saveError]
  | otherExc m => simp [saveError]

theorem addStep_free (cfg : Config) (st : State) (sub nm : String) (e : AddEnv)
    (hfp : FS.pexists st.fs (st.project_folder ++ [sub] ++ [nm ++ ".jpg"]) = false) :
    addStep cfg st sub nm e =
      some (st.project_folder ++ [sub] ++ [nm ++ ".jpg"], nm ++ ".jpg", st.fs) := by
  simp only [addStep, hfp, Bool.false_eq_true, if_false]

theorem addStep_replace (cfg : Config) (st : State) (sub nm : String) (e : AddEnv)
    (hfp : FS.pexists st.fs (st.project_folder ++ [sub] ++ [nm ++ ".jpg"]) = true)
    (hpol : cfg.duplicate_handling = .replace) :
    addStep cfg st sub nm e =
      some (st.project_folder ++ [sub] ++ [nm ++ ".jpg"], nm ++ ".jpg",
        (move_to_trash st.fs st.trash_folder (st.project_folder ++ [sub] ++ [nm ++ ".jpg"])
          e.trash_move_exc).2) := by
  simp only [addStep, hfp, if_true, handle_duplicate_check, hpol]

theorem addStep_ask (cfg : Config) (st : State) (sub nm : String) (e : AddEnv)
    (hfp : FS.pexists st.fs (st.project_folder ++ [sub] ++ [nm ++ ".jpg"]) = true)
    (hpol : cfg.duplicate_handling = .ask) :
    addStep cfg st sub nm e = none := by
  simp only [addStep, hfp, if_true, handle_duplicate_check, hpol]

theorem addStep_auto_shape (cfg : Config) (st : State) (sub nm : String) (e : AddEnv)
    (hfp : FS.pexists st.fs (st.project_folder ++ [sub] ++ [nm ++ ".jpg"]) = true)
    (hpol : cfg.duplicate_handling = .auto_increment) :
    ∃ p, addStep cfg st sub nm e = some (p, pathName p, st.fs) :=
  ⟨findFree st.fs (suffCand (st.project_folder ++ [sub]) nm ".jpg") 2 (st.fs.length + 1)
      (st.project_folder ++ [sub] ++ [nm ++ ".jpg"]), by
    simp only [addStep, hfp, if_true, handle_duplicate_check, hpol]⟩

theorem addStep_some (cfg : Config) (st : State) (sub nm : String) (e : AddEnv)
    (hask : ¬(FS.pexists st.fs (st.project_folder ++ [sub] ++ [nm ++ ".jpg"]) = true ∧
              cfg.duplicate_handling = DupPolicy.ask)) :
    ∃ fp fn fs1, addStep cfg st sub nm e = some (fp, fn, fs1) := by
  cases hfp : FS.pexists st.fs (st.project_folder ++ [sub] ++ [nm ++ ".jpg"]) with
  | false => exact ⟨_, _, _, addStep_free cfg st sub nm e hfp⟩
  | true =>
    cases hpol : cfg.duplicate_handling with
    | ask => exact absurd ⟨hfp, hpol⟩ hask
    | auto_increment =>
      obtain ⟨p, hp⟩ := addStep_auto_shape cfg st sub nm e hfp hpol
      exact ⟨_, _, _, hp⟩
    | replace => exact ⟨_, _, _, addStep_replace cfg st sub nm e hfp hpol⟩

theorem add_photo_mkdir_fail (cfg : Config) (st : State) (sub nm : String) (frame : Img)
    (ts : String) (e : AddEnv) (m : String) (hm : e.mkdir_exc = some m) :
    add_photo cfg st sub nm frame ts e = (.error ("Cannot create subfolder: " ++ m), st) := by
  simp only [add_photo, hm]

theorem add_photo_write_fail (cfg : Config) (st : State) (sub nm : String) (frame : Img)
    (ts : String) (e : AddEnv) (m : String) (fp : Path) (fn : String) (fs1 : FS)
    (hm : e.mkdir_exc = none) (hstep : addStep cfg st sub nm e = some (fp, fn, fs1))
    (hw : e.write_exc = some m) :
    add_photo cfg st sub nm frame ts e =
      (.error ("Cannot save photo: " ++ m), { st with fs := fs1 }) := by
  simp only [add_photo, hm, hstep, hw]

theorem add_photo_duplicate (cfg : Config) (st : State) (sub nm : String) (frame : Img)
    (ts : String) (e : AddEnv) (hm : e.mkdir_exc = none)
    (hstep : addStep cfg st sub nm e = none) :
    add_photo cfg st sub nm frame ts e =
      (.duplicate nm sub (st.project_folder ++ [sub] ++ [nm ++ ".jpg"]) frame, st) := by
  simp only [add_photo, hm, hstep]

theorem add_photo_success_parts (cfg : Config) (st : State) (sub nm : String) (frame : Img)
    (ts : String) (e : AddEnv) (fp : Path) (fn : String) (fs1 : FS)
    (hm : e.mkdir_exc = none) (hstep : addStep cfg st sub nm e = some (fp, fn, fs1))
    (hw : e.write_exc = none) :
    (add_photo cfg st sub nm frame ts e).1 =
      .success ⟨ts, sub, nm, fn, fp⟩ (saveError e.excel) ∧
    (add_photo cfg st sub nm frame ts e).2.photos = st.photos ++ [⟨ts, sub, nm, fn, fp⟩] ∧
    (add_photo cfg st sub nm frame ts e).2.excel =
      (append_to_excel st.excel ⟨ts, sub, nm, fn, fp⟩ e.excel).2 ∧
    (add_photo cfg st sub nm frame ts e).2.fs = fs1.write fp frame ∧
    (add_photo cfg st sub nm frame ts e).2.deleted_photos = st.deleted_photos ∧
    (add_photo cfg st sub nm frame ts e).2.trash_folder = st.trash_folder ∧
    (add_photo cfg st sub nm frame ts e).2.project_folder = st.project_folder := by
  simp only [add_photo, hm, hstep, hw, append_to_excel_fst]
  exact ⟨trivial, trivial, trivial, trivial, trivial, trivial, trivial⟩

theorem findFree_of_free (fs : FS) (cand : Nat → Path) (k fuel : Nat) (path : Path)
    (h : FS.pexists fs path = false) : findFree fs cand k fuel path = path := by
  cases fuel with
  | zero => rfl
  | succ f => simp [findFree, h]

theorem trashTarget_of_free (fs : FS) (trash fp : Path)
    (h : FS.pexists fs (trash ++ [pathName fp]) = false) :
    trashTarget fs trash fp = trash ++ [pathName fp] := by
  unfold trashTarget
  exact findFree_of_free _ _ _ _ _ h

theorem add_photo_success_eq (cfg : Config) (st : State) (sub nm : String) (frame : Img)
    (ts : String) (e : AddEnv) (fp : Path) (fn : String) (fs1 : FS)
    (hm : e.mkdir_exc = none) (hstep : addStep cfg st sub nm e = some (fp, fn, fs1))
    (hw : e.write_exc = none) (hc : e.crumb_exc = none) :
    add_photo cfg st sub nm frame ts e =
      (.success ⟨ts, sub, nm, fn, fp⟩ (saveError e.excel),
       { st with fs := fs1.write fp frame,
                 photos := st.photos ++ [⟨ts, sub, nm, fn, fp⟩],
                 excel := (append_to_excel st.excel ⟨ts, sub, nm, fn, fp⟩ e.excel).2,
                 breadcrumb := some ⟨st.project_folder,
                   (st.photos ++ [(⟨ts, sub, nm, fn, fp⟩ : PhotoRecord)]).length, ts⟩ }) := by
  simp only [add_photo, hm, hstep, hw, hc, append_to_excel_fst]

/-! ### Claim C8 -/

/-- Claim C8: if `add_photo` fails at subfolder creation or at the image
write, it returns an error result and appends no record, writes nothing
to the ledger, and leaves the crash-recovery breadcrumb untouched (in
the mkdir case the entire state is untouched). The write-failure case
assumes the operation actually reaches the write, i.e. it is not
short-circuited by an `ask`-policy duplicate outcome. -/
theorem C8_add_early_failure (cfg : Config) (st : State) (sub nm : String) (frame : Img)
    (ts : String) (e : AddEnv) :
    (∀ m, e.mkdir_exc = some m →
      add_photo cfg st sub nm frame ts e = (.error ("Cannot create subfolder: " ++ m), st)) ∧
    (∀ m, e.mkdir_exc = none → e.write_exc = some m →
      ¬(FS.pexists st.fs (st.project_folder ++ [sub] ++ [nm ++ ".jpg"]) = true ∧
         cfg.duplicate_handling = DupPolicy.ask) →
      (add_photo cfg st sub nm frame ts e).1 = .error ("Cannot save photo: " ++ m) ∧
      (add_photo cfg st sub nm frame ts e).2.photos = st.photos ∧
      (add_photo cfg st sub nm frame ts e).2.excel = st.excel ∧
      (add_photo cfg st sub nm frame ts e).2.breadcrumb = st.breadcrumb) := by
  constructor
  · intro m hm
    exact add_photo_mkdir_fail cfg st sub nm frame ts e m hm
  · intro m hm hw hask
    obtain ⟨fp, fn, fs1, hstep⟩ := addStep_some cfg st sub nm e hask
    rw [add_photo_write_fail cfg st sub nm frame ts e m fp fn fs1 hm hstep hw]
    exact ⟨rfl, rfl, rfl, rfl⟩

/-- Witness for C8: mkdir failure and write failure on a fresh session. -/
theorem C8_witness :
    add_photo (cfgWith .ask) freshState "HR" "John" 5 "t1"
        { okAdd with mkdir_exc := some "denied" } =
      (.error "Cannot create subfolder: denied", freshState) ∧
    (add_photo (cfgWith .ask) freshState "HR" "John" 5 "t1"
        { okAdd with write_exc := some "disk full" }).1 = .error "Cannot save photo: disk full" :=
  ⟨(C8_add_early_failure (cfgWith .ask) freshState "HR" "John" 5 "t1"
      { okAdd with mkdir_exc := some "denied" }).1 "denied" rfl,
   ((C8_add_early_failure (cfgWith .ask) freshState "HR" "John" 5 "t1"
      { okAdd with write_exc := some "disk full" }).2 "disk full" rfl rfl (by decide)).1⟩

/-! ### Claim C4 -/

/-- Claim C4: when the photo file write succeeded but the ledger append
fails, the new in-memory record is kept and the call still returns a
success result carrying a non-null save-error message; the ledger is
left unchanged. The file-locked (`PermissionError`) case carries the
distinct close-the-file message, which no other append-error message
ever equals. -/
theorem C4_add_save_error (cfg : Config) (st : State) (sub nm : String)
    (frame : Img) (ts : String) (e : AddEnv)
    (hm : e.mkdir_exc = none) (hw : e.write_exc = none)
    (hask : ¬(FS.pexists st.fs (st.project_folder ++ [sub] ++ [nm ++ ".jpg"]) = true ∧
              cfg.duplicate_handling = DupPolicy.ask))
    (hex : e.excel ≠ .ok) :
    ∃ pd, (add_photo cfg st sub nm frame ts e).1 = .success pd (saveError e.excel) ∧
      saveError e.excel ≠ none ∧
      (add_photo cfg st sub nm frame ts e).2.photos = st.photos ++ [pd] ∧
      (add_photo cfg st sub nm frame ts e).2.excel = st.excel ∧
      saveError .permission = some "Excel file is open. Please close it to save data." ∧
      (∀ s, saveError (.otherExc s) = some ("Error saving to Excel: " ++ s)) ∧
      (∀ s, ("Error saving to Excel: " ++ s) ≠
        "Excel file is open. Please close it to save data.") := by
  have hmsg : ∀ s : String, ("Error saving to Excel: " ++ s) ≠
      "Excel file is open. Please close it to save data." := by
    intro s h
    have hd := congrArg String.data h
    rw [strData_append] at hd
    simp at hd
  obtain ⟨fp, fn, fs1, hstep⟩ := addStep_some cfg st sub nm e hask
  obtain ⟨h1, h2, h3, _⟩ := add_photo_success_parts cfg st sub nm frame ts e fp fn fs1 hm hstep hw
  refine ⟨_, h1, saveError_ne_none _ hex, h2, ?_, rfl, fun s => rfl, hmsg⟩
  rw [h3, append_to_excel_snd _ _ _ hex]

/-- Witness for C4: a locked ledger during an add on a fresh session. -/
theorem C4_witness :
    ∃ pd,
      (add_photo (cfgWith .ask) freshState "HR" "John" 5 "t1"
          { okAdd with excel := .permission }).1 = .success pd (saveError .permission) ∧
      saveError (ExcelOutcome.permission) ≠ none ∧
      (add_photo (cfgWith .ask) freshState "HR" "John" 5 "t1"
          { okAdd with excel := .permission }).2.photos = freshState.photos ++ [pd] ∧
      (add_photo (cfgWith .ask) freshState "HR" "John" 5 "t1"
          { okAdd with excel := .permission }).2.excel = freshState.excel ∧
      saveError .permission = some "Excel file is open. Please close it to save data." ∧
      (∀ s, saveError (.otherExc s) = some ("Error saving to Excel: " ++ s)) ∧
      (∀ s, ("Error saving to Excel: " ++ s) ≠
        "Excel file is open. Please close it to save data.") :=
  C4_add_save_error (cfgWith .ask) freshState "HR" "John" 5 "t1"
    { okAdd with excel := .permission } rfl rfl (by decide) (by decide)

/-! ### Claim C3 -/

/-- Counterexample to claim C3: with a single undo entry whose trashed
file is gone, `undo_delete` does fail with the trash-file-missing error,
but the undo stack is NOT left as it was — the failing entry has been
popped and discarded, so the stack is empty afterwards. -/
theorem C3_counterexample :
    (undo_delete { demoState with deleted_photos := [demoEntry] } okUndo).1 =
      .error "Deleted file not found in trash" ∧
    (undo_delete { demoState with deleted_photos := [demoEntry] } okUndo).2.deleted_photos = [] ∧
    ({ demoState with deleted_photos := [demoEntry] } : State).deleted_photos ≠ [] := by
  decide

/-- Claim C3 as amended: `undo_delete` fails with `NothingToUndo` on an
empty stack, leaving the state untouched; on a non-empty stack whose
most recent entry has no trash file it fails with `TrashFileMissing`,
leaving the photo sequence, disk and ledger untouched, but the popped
entry is discarded — the undo stack is one entry shorter. -/
theorem C3_amended_undo_failures (st : State) (e : UndoEnv) :
    (st.deleted_photos = [] → undo_delete st e = (.error "No deletions to undo", st)) ∧
    (∀ ent, st.deleted_photos.getLast? = some ent →
      FS.pexists st.fs ent.trash_path = false →
      undo_delete st e =
        (.error "Deleted file not found in trash",
         { st with deleted_photos := st.deleted_photos.dropLast })) := by
  constructor
  · intro h
    simp [undo_delete, h]
  · intro ent hlast hmiss
    simp only [undo_delete, hlast, hmiss, Bool.false_eq_true, if_false]

/-- Witness for C3 (amended): the concrete stale-entry session. -/
theorem C3_witness :
    undo_delete { demoState with deleted_photos := [demoEntry] } okUndo =
      (.error "Deleted file not found in trash",
       { demoState with deleted_photos := [] }) :=
  (C3_amended_undo_failures { demoState with deleted_photos := [demoEntry] } okUndo).2
    demoEntry (by decide) (by decide)

/-! ### Claim C7 -/

/-- Claim C7: under `auto_increment`, when `folder/name.jpg` exists the
duplicate check resolves to `name_k.jpg` for the smallest free `k ≥ 2`;
concretely, two successive adds of `John` in `HR` from a fresh session
yield two records named `John.jpg` and `John_2.jpg`, both on disk. -/
theorem C7_auto_increment (cfg : Config) (fs : FS) (folder : Path) (nm : String) :
    (cfg.duplicate_handling = .auto_increment →
     FS.pexists fs (folder ++ [nm ++ ".jpg"]) = true →
     ∃ k, 2 ≤ k ∧
       handle_duplicate_check cfg fs (folder ++ [nm ++ ".jpg"]) nm folder =
         .new_path (folder ++ [nm ++ "_" ++ decRepr k ++ ".jpg"]) ∧
       FS.pexists fs (folder ++ [nm ++ "_" ++ decRepr k ++ ".jpg"]) = false ∧
       (∀ m, 2 ≤ m → m < k →
         FS.pexists fs (folder ++ [nm ++ "_" ++ decRepr m ++ ".jpg"]) = true)) ∧
    ((add_photo (cfgWith .auto_increment)
        (add_photo (cfgWith .auto_increment) freshState "HR" "John" 1 "t1" okAdd).2
        "HR" "John" 2 "t2" okAdd).2.photos.map PhotoRecord.filename =
      ["John.jpg", "John_2.jpg"] ∧
     FS.lookup (add_photo (cfgWith .auto_increment)
        (add_photo (cfgWith .auto_increment) freshState "HR" "John" 1 "t1" okAdd).2
        "HR" "John" 2 "t2" okAdd).2.fs ["P", "HR", "John.jpg"] = some 1 ∧
     FS.lookup (add_photo (cfgWith .auto_increment)
        (add_photo (cfgWith .auto_increment) freshState "HR" "John" 1 "t1" okAdd).2
        "HR" "John" 2 "t2" okAdd).2.fs ["P", "HR", "John_2.jpg"] = some 2) := by
  constructor
  · intro hpol hex
    exact autoInc_spec cfg fs folder nm hpol hex
  · exact ⟨by decide, by decide, by decide⟩

/-- Witness for C7 at the concrete disk holding `P/HR/John.jpg`. -/
theorem C7_witness :
    ∃ k, 2 ≤ k ∧
      handle_duplicate_check (cfgWith .auto_increment) demoState.fs
          (["P", "HR"] ++ ["John" ++ ".jpg"]) "John" ["P", "HR"] =
        .new_path (["P", "HR"] ++ ["John" ++ "_" ++ decRepr k ++ ".jpg"]) ∧
      FS.pexists demoState.fs (["P", "HR"] ++ ["John" ++ "_" ++ decRepr k ++ ".jpg"]) = false ∧
      (∀ m, 2 ≤ m → m < k →
        FS.pexists demoState.fs (["P", "HR"] ++ ["John" ++ "_" ++ decRepr m ++ ".jpg"]) = true) :=
  (C7_auto_increment (cfgWith .auto_increment) demoState.fs ["P", "HR"] "John").1
    rfl (by decide)

/-! ### Claim C1 -/

/-- Counterexample to claim C1: under the `replace` policy, two adds of
`HR`/`John` from a fresh session leave TWO records named `John.jpg` in
the in-memory list (the stale first record is not removed), not exactly
one. -/
theorem C1_counterexample :
    ((add_photo (cfgWith .replace)
        (add_photo (cfgWith .replace) freshState "HR" "John" 1 "t1" okAdd).2
        "HR" "John" 2 "t2" okAdd).2.photos.filter
      (fun r => r.filename == "John.jpg")).length = 2 := by
  decide

/-- Claim C1 as amended: under `replace`, the second add with the same
subfolder and name relocates the first file to trash and writes the
second image at the shared path, but the record set afterwards holds
exactly TWO records named `name.jpg` — the stale first record and the
new one — both with the same `file_path`, whose on-disk content is the
second image. -/
theorem C1_amended_replace (cfg : Config) (pf tf : Path) (sub nm : String)
    (img1 img2 : Img) (ts1 ts2 : String)
    (hpol : cfg.duplicate_handling = .replace)
    (hne : tf ++ [nm ++ ".jpg"] ≠ pf ++ [sub] ++ [nm ++ ".jpg"]) :
    (add_photo cfg (add_photo cfg (emptySession pf tf) sub nm img1 ts1 okAdd).2
        sub nm img2 ts2 okAdd).2.photos =
      [⟨ts1, sub, nm, nm ++ ".jpg", pf ++ [sub] ++ [nm ++ ".jpg"]⟩,
       ⟨ts2, sub, nm, nm ++ ".jpg", pf ++ [sub] ++ [nm ++ ".jpg"]⟩] ∧
    FS.lookup (add_photo cfg (add_photo cfg (emptySession pf tf) sub nm img1 ts1 okAdd).2
        sub nm img2 ts2 okAdd).2.fs (pf ++ [sub] ++ [nm ++ ".jpg"]) = some img2 ∧
    FS.lookup (add_photo cfg (add_photo cfg (emptySession pf tf) sub nm img1 ts1 okAdd).2
        sub nm img2 ts2 okAdd).2.fs (tf ++ [nm ++ ".jpg"]) = some img1 := by
  have hne2 : pf ++ [sub] ++ [nm ++ ".jpg"] ≠ tf ++ [nm ++ ".jpg"] := fun hc => hne hc.symm
  have hstep1 : addStep cfg (emptySession pf tf) sub nm okAdd =
      some (pf ++ [sub] ++ [nm ++ ".jpg"], nm ++ ".jpg", []) :=
    addStep_free cfg (emptySession pf tf) sub nm okAdd rfl
  have h1 : add_photo cfg (emptySession pf tf) sub nm img1 ts1 okAdd =
      (.success ⟨ts1, sub, nm, nm ++ ".jpg", pf ++ [sub] ++ [nm ++ ".jpg"]⟩ none,
       { photos := [⟨ts1, sub, nm, nm ++ ".jpg", pf ++ [sub] ++ [nm ++ ".jpg"]⟩],
         deleted_photos := [], project_folder := pf, trash_folder := tf,
         excel := [⟨ts1, sub, nm, nm ++ ".jpg", pf ++ [sub] ++ [nm ++ ".jpg"]⟩],
         fs := [(pf ++ [sub] ++ [nm ++ ".jpg"], img1)],
         breadcrumb := some ⟨pf, 1, ts1⟩ }) :=
    add_photo_success_eq cfg (emptySession pf tf) sub nm img1 ts1 okAdd
      (pf ++ [sub] ++ [nm ++ ".jpg"]) (nm ++ ".jpg") [] rfl hstep1 rfl rfl
  have hfp2 : FS.pexists ([(pf ++ [sub] ++ [nm ++ ".jpg"], img1)] : FS)
      (pf ++ [sub] ++ [nm ++ ".jpg"]) = true := by
    simp [FS.pexists, FS.lookup]
  have hne3 : ¬(pf ++ [sub, nm ++ ".jpg"] = tf ++ [nm ++ ".jpg"]) := by
    simpa using hne2
  have hfree : FS.pexists ([(pf ++ [sub] ++ [nm ++ ".jpg"], img1)] : FS)
      (tf ++ [pathName (pf ++ [sub] ++ [nm ++ ".jpg"])]) = false := by
    rw [pathName_concat]
    simp [FS.pexists, FS.lookup, hne3]
  have htt := trashTarget_of_free ([(pf ++ [sub] ++ [nm ++ ".jpg"], img1)] : FS)
    tf (pf ++ [sub] ++ [nm ++ ".jpg"]) hfree
  rw [pathName_concat] at htt
  have hmt : move_to_trash ([(pf ++ [sub] ++ [nm ++ ".jpg"], img1)] : FS) tf
      (pf ++ [sub] ++ [nm ++ ".jpg"]) none =
      (some (tf ++ [nm ++ ".jpg"]), [(tf ++ [nm ++ ".jpg"], img1)]) := by
    unfold move_to_trash
    rw [htt]
    simp [FS.move, FS.lookup, FS.remove, FS.write]
  have hstep2 : addStep cfg
      ({ photos := [⟨ts1, sub, nm, nm ++ ".jpg", pf ++ [sub] ++ [nm ++ ".jpg"]⟩],
         deleted_photos := [], project_folder := pf, trash_folder := tf,
         excel := [⟨ts1, sub, nm, nm ++ ".jpg", pf ++ [sub] ++ [nm ++ ".jpg"]⟩],
         fs := [(pf ++ [sub] ++ [nm ++ ".jpg"], img1)],
         breadcrumb := some ⟨pf, 1, ts1⟩ } : State) sub nm okAdd =
      some (pf ++ [sub] ++ [nm ++ ".jpg"], nm ++ ".jpg", [(tf ++ [nm ++ ".jpg"], img1)]) := by
    rw [addStep_replace _ _ _ _ _ hfp2 hpol]
    dsimp only [okAdd]
    rw [hmt]
  have h2 := add_photo_success_eq cfg
      ({ photos := [⟨ts1, sub, nm, nm ++ ".jpg", pf ++ [sub] ++ [nm ++ ".jpg"]⟩],
         deleted_photos := [], project_folder := pf, trash_folder := tf,
         excel := [⟨ts1, sub, nm, nm ++ ".jpg", pf ++ [sub] ++ [nm ++ ".jpg"]⟩],
         fs := [(pf ++ [sub] ++ [nm ++ ".jpg"], img1)],
         breadcrumb := some ⟨pf, 1, ts1⟩ } : State) sub nm img2 ts2 okAdd
      (pf ++ [sub] ++ [nm ++ ".jpg"]) (nm ++ ".jpg") [(tf ++ [nm ++ ".jpg"], img1)]
      rfl hstep2 rfl rfl
  rw [h1]
  dsimp only
  rw [h2]
  dsimp only
  refine ⟨rfl, ?_, ?_⟩
  · exact FS.lookup_write_self _ _ _
  · rw [FS.lookup_write_other _ _ _ _ hne]
    simp [FS.lookup]

/-- Witness for C1 (amended) at the concrete `HR`/`John` scenario. -/
theorem C1_witness :
    (add_photo (cfgWith .replace)
        (add_photo (cfgWith .replace) (emptySession ["P"] ["T"]) "HR" "John" 1 "t1" okAdd).2
        "HR" "John" 2 "t2" okAdd).2.photos =
      [⟨"t1", "HR", "John", "John" ++ ".jpg", ["P"] ++ ["HR"] ++ ["John" ++ ".jpg"]⟩,
       ⟨"t2", "HR", "John", "John" ++ ".jpg", ["P"] ++ ["HR"] ++ ["John" ++ ".jpg"]⟩] ∧
    FS.lookup (add_photo (cfgWith .replace)
        (add_photo (cfgWith .replace) (emptySession ["P"] ["T"]) "HR" "John" 1 "t1" okAdd).2
        "HR" "John" 2 "t2" okAdd).2.fs (["P"] ++ ["HR"] ++ ["John" ++ ".jpg"]) = some 2 ∧
    FS.lookup (add_photo (cfgWith .replace)
        (add_photo (cfgWith .replace) (emptySession ["P"] ["T"]) "HR" "John" 1 "t1" okAdd).2
        "HR" "John" 2 "t2" okAdd).2.fs (["T"] ++ ["John" ++ ".jpg"]) = some 1 :=
  C1_amended_replace (cfgWith .replace) ["P"] ["T"] "HR" "John" 1 2 "t1" "t2"
    rfl (by decide)

/-! ### Claim C2 -/

theorem add_photo_ledger_sync (cfg : Config) (st : State) (sub nm : String) (frame : Img)
    (ts : String) (e : AddEnv) (hsync : st.excel = st.photos) :
    (add_photo cfg st sub nm frame ts e).2.excel = (add_photo cfg st sub nm frame ts e).2.photos ∨
    (add_photo cfg st sub nm frame ts e).2.excel = st.photos := by
  cases hm : e.mkdir_exc with
  | some m =>
    rw [add_photo_mkdir_fail cfg st sub nm frame ts e m hm]
    exact Or.inr hsync
  | none =>
    cases hstep : addStep cfg st sub nm e with
    | none =>
      rw [add_photo_duplicate cfg st sub nm frame ts e hm hstep]
      exact Or.inr hsync
    | some t =>
      obtain ⟨fp, fn, fs1⟩ := t
      cases hw : e.write_exc with
      | some m =>
        rw [add_photo_write_fail cfg st sub nm frame ts e m fp fn fs1 hm hstep hw]
        exact Or.inr hsync
      | none =>
        obtain ⟨_, h2, h3, _⟩ :=
          add_photo_success_parts cfg st sub nm frame ts e fp fn fs1 hm hstep hw
        cases hxl : e.excel with
        | ok =>
          left
          rw [h2, h3, hxl]
          simp [append_to_excel, hsync]
        | permission =>
          right
          rw [h3, hxl]
          simp [append_to_excel, hsync]
        | otherExc m =>
          right
          rw [h3, hxl]
          simp [append_to_excel, hsync]

theorem updApply_sync' (st0 st : State) (i : Nat) (old : PhotoRecord) (sub nm fn : String)
    (np : Path) (e : UpdEnv) (hx : st.excel = st0.excel) (hsync : st0.excel = st0.photos) :
    (updApply st i old sub nm fn np e).2.excel = (updApply st i old sub nm fn np e).2.photos ∨
    (updApply st i old sub nm fn np e).2.excel = st0.photos := by
  unfold updApply
  by_cases h : e.rewrite_exc = none
  · left; simp [h]
  · right; simp [h, hx, hsync]

theorem update_photo_ledger_sync (cfg : Config) (st : State) (i : Nat) (sub nm : String)
    (e : UpdEnv) (hsync : st.excel = st.photos) :
    (update_photo cfg st i sub nm e).2.excel = (update_photo cfg st i sub nm e).2.photos ∨
    (update_photo cfg st i sub nm e).2.excel = st.photos := by
  cases hph : st.photos[i]? with
  | none => simp only [update_photo, hph]; exact Or.inr hsync
  | some old =>
    simp only [update_photo, hph]
    cases hfp : FS.pexists st.fs old.file_path with
    | false =>
      simp only [hfp, Bool.false_eq_true, if_false]
      exact Or.inr hsync
    | true =>
      simp only [hfp, if_true]
      cases hm : e.mkdir_exc with
      | some m => simp only [hm]; exact Or.inr hsync
      | none =>
        simp only [hm]
        by_cases hpd : old.file_path = st.project_folder ++ [sub] ++ [nm ++ ".jpg"]
        · simp only [if_pos hpd]
          exact updApply_sync' st st i old sub nm _ _ e rfl hsync
        · simp only [if_neg hpd]
          split
          · exact Or.inr hsync
          · cases hmv : e.move_exc with
            | some m2 => simp only [hmv]; exact Or.inr hsync
            | none =>
              simp only [hmv]
              exact updApply_sync' st _ i old sub nm _ _ e rfl hsync

theorem delFinish_sync' (st0 st : State) (i : Nat) (photo : PhotoRecord) (e : DelEnv)
    (hx : st.excel = st0.excel) (hsync : st0.excel = st0.photos) :
    (delFinish st i photo e).2.excel = (delFinish st i photo e).2.photos ∨
    (delFinish st i photo e).2.excel = st0.photos := by
  unfold delFinish
  by_cases h : e.rewrite_exc = none
  · left; simp [h]
  · right; simp [h, hx, hsync]

theorem delete_photo_ledger_sync (cfg : Config) (st : State) (i : Nat) (e : DelEnv)
    (hsync : st.excel = st.photos) :
    (delete_photo cfg st i e).2.excel = (delete_photo cfg st i e).2.photos ∨
    (delete_photo cfg st i e).2.excel = st.photos := by
  cases hph : st.photos[i]? with
  | none => simp only [delete_photo, hph]; exact Or.inr hsync
  | some photo =>
    simp only [delete_photo, hph]
    cases hfp : FS.pexists st.fs photo.file_path with
    | false =>
      simp only [hfp, Bool.false_eq_true, if_false]
      exact delFinish_sync' st st i photo e rfl hsync
    | true =>
      simp only [hfp, if_true]
      cases htr : cfg.use_trash with
      | false =>
        simp only [htr, Bool.false_eq_true, if_false]
        cases hu : e.unlink_exc with
        | some m => simp only [hu]; exact Or.inr hsync
        | none =>
          simp only [hu]
          exact delFinish_sync' st _ i photo e rfl hsync
      | true =>
        simp only [htr, if_true]
        simp only [delTrashBranch]
        split
        · split
          · exact delFinish_sync' st _ i photo e rfl hsync
          · exact delFinish_sync' st _ i photo e rfl hsync
        · exact delFinish_sync' st _ i photo e rfl hsync

theorem undo_delete_ledger_sync (st : State) (e : UndoEnv) (hsync : st.excel = st.photos) :
    (undo_delete st e).2.excel = (undo_delete st e).2.photos ∨
    (undo_delete st e).2.excel = st.photos := by
  cases hlast : st.deleted_photos.getLast? with
  | none => simp only [undo_delete, hlast]; exact Or.inr hsync
  | some ent =>
    simp only [undo_delete, hlast]
    cases hex : FS.pexists st.fs ent.trash_path with
    | false =>
      simp only [hex, Bool.false_eq_true, if_false]
      exact Or.inr hsync
    | true =>
      simp only [hex, if_true]
      cases hro : e.restore_exc with
      | some m => simp only [hro]; exact Or.inr hsync
      | none =>
        simp only [hro]
        by_cases hrw : e.rewrite_exc = none
        · left; simp [hrw]
        · right; simp [hrw, hsync]

/-- Counterexample to claim C2: an `add_photo` whose ledger append hits
a `PermissionError` mutates the in-memory sequence (one record added),
appends no row, and is not rolled back — the persisted rows no longer
match the in-memory sequence. -/
theorem C2_counterexample :
    (∀ row : PhotoRecord,
      (add_photo (cfgWith .ask) freshState "HR" "John" 5 "t1"
        { okAdd with excel := .permission }).2.excel ≠ freshState.excel ++ [row]) ∧
    (add_photo (cfgWith .ask) freshState "HR" "John" 5 "t1"
      { okAdd with excel := .permission }).2.excel ≠
      (add_photo (cfgWith .ask) freshState "HR" "John" 5 "t1"
        { okAdd with excel := .permission }).2.photos ∧
    (add_photo (cfgWith .ask) freshState "HR" "John" 5 "t1"
      { okAdd with excel := .permission }).2 ≠ freshState := by
  refine ⟨?_, by decide, by decide⟩
  intro row h
  have hA : (add_photo (cfgWith .ask) freshState "HR" "John" 5 "t1"
      { okAdd with excel := .permission }).2.excel = [] := by decide
  rw [hA] at h
  simp [freshState, emptySession] at h

/-- Claim C2 as amended: starting from a state whose persisted rows
equal the in-memory sequence, every mutating operation leaves the
ledger either exactly equal to the post-operation sequence (the append
for add, or the full rewrite) or exactly equal to the pre-operation
sequence (operation aborted before mutating memory, or a ledger-write
failure after the memory mutation, which is kept and not rolled back).
The ledger is never left in any third, partially-written shape. -/
theorem C2_amended_ledger_sync :
    (∀ (cfg : Config) (st : State) (sub nm : String) (frame : Img) (ts : String) (e : AddEnv),
      st.excel = st.photos →
      (add_photo cfg st sub nm frame ts e).2.excel =
        (add_photo cfg st sub nm frame ts e).2.photos ∨
      (add_photo cfg st sub nm frame ts e).2.excel = st.photos) ∧
    (∀ (cfg : Config) (st : State) (i : Nat) (sub nm : String) (e : UpdEnv),
      st.excel = st.photos →
      (update_photo cfg st i sub nm e).2.excel =
        (update_photo cfg st i sub nm e).2.photos ∨
      (update_photo cfg st i sub nm e).2.excel = st.photos) ∧
    (∀ (cfg : Config) (st : State) (i : Nat) (e : DelEnv),
      st.excel = st.photos →
      (delete_photo cfg st i e).2.excel = (delete_photo cfg st i e).2.photos ∨
      (delete_photo cfg st i e).2.excel = st.photos) ∧
    (∀ (st : State) (e : UndoEnv),
      st.excel = st.photos →
      (undo_delete st e).2.excel = (undo_delete st e).2.photos ∨
      (undo_delete st e).2.excel = st.photos) :=
  ⟨fun cfg st sub nm frame ts e h => add_photo_ledger_sync cfg st sub nm frame ts e h,
   fun cfg st i sub nm e h => update_photo_ledger_sync cfg st i sub nm e h,
   fun cfg st i e h => delete_photo_ledger_sync cfg st i e h,
   fun st e h => undo_delete_ledger_sync st e h⟩

/-- Witness for C2 (amended): a delete on the concrete synced session. -/
theorem C2_witness :
    (delete_photo (cfgWith .ask) demoState 0 okDel).2.excel =
      (delete_photo (cfgWith .ask) demoState 0 okDel).2.photos ∨
    (delete_photo (cfgWith .ask) demoState 0 okDel).2.excel = demoState.photos :=
  C2_amended_ledger_sync.2.2.1 (cfgWith .ask) demoState 0 okDel rfl

/-! ### Claim C6 -/

theorem FS.pexists_purge (fs : FS) (p : Path) :
    FS.pexists (if FS.pexists fs p then FS.remove fs p else fs) p = false := by
  cases hx : FS.pexists fs p with
  | true => simp [hx, FS.pexists_remove_self]
  | false => simp [hx]

theorem delTrashBranch_no_overflow (cfg : Config) (st : State) (i : Nat)
    (photo : PhotoRecord) (e : DelEnv)
    (hlim : st.deleted_photos.length < cfg.undo_delete_limit) :
    delTrashBranch cfg st i photo e =
      delFinish
        { st with
          fs := (move_to_trash st.fs st.trash_folder photo.file_path e.trash_move_exc).2,
          deleted_photos := st.deleted_photos ++
            [⟨photo.file_path,
              trashPathStr (move_to_trash st.fs st.trash_folder photo.file_path e.trash_move_exc).1,
              photo, i⟩] } i photo e := by
  have hcond : ¬(st.deleted_photos ++
      [(⟨photo.file_path,
        trashPathStr (move_to_trash st.fs st.trash_folder photo.file_path e.trash_move_exc).1,
        photo, i⟩ : UndoEntry)]).length > cfg.undo_delete_limit := by
    simp only [List.length_append, List.length_cons, List.length_nil]
    omega
  simp only [delTrashBranch, if_neg hcond]

theorem delTrashBranch_overflow (cfg : Config) (st : State) (i : Nat)
    (photo : PhotoRecord) (e : DelEnv)
    (hlim : cfg.undo_delete_limit ≤ st.deleted_photos.length) :
    ∃ oldest rest,
      st.deleted_photos ++
        [(⟨photo.file_path,
          trashPathStr (move_to_trash st.fs st.trash_folder photo.file_path e.trash_move_exc).1,
          photo, i⟩ : UndoEntry)] = oldest :: rest ∧
      delTrashBranch cfg st i photo e =
        delFinish
          { st with deleted_photos := rest,
                    fs := if FS.pexists
                        (move_to_trash st.fs st.trash_folder photo.file_path e.trash_move_exc).2
                        oldest.trash_path then
                      FS.remove
                        (move_to_trash st.fs st.trash_folder photo.file_path e.trash_move_exc).2
                        oldest.trash_path
                    else (move_to_trash st.fs st.trash_folder photo.file_path e.trash_move_exc).2 }
          i photo e := by
  cases hdp : st.deleted_photos ++
      [(⟨photo.file_path,
        trashPathStr (move_to_trash st.fs st.trash_folder photo.file_path e.trash_move_exc).1,
        photo, i⟩ : UndoEntry)] with
  | nil => exact absurd hdp (by simp)
  | cons oldest rest =>
    refine ⟨oldest, rest, rfl, ?_⟩
    have hlen := congrArg List.length hdp
    simp only [List.length_append, List.length_cons, List.length_nil] at hlen
    have hcond2 : (oldest :: rest).length > cfg.undo_delete_limit := by
      simp only [List.length_cons]
      omega
    simp only [delTrashBranch, hdp, if_pos hcond2]

theorem delete_photo_trash_eq (cfg : Config) (st : State) (i : Nat) (e : DelEnv)
    (photo : PhotoRecord) (hph : st.photos[i]? = some photo)
    (hfp : FS.pexists st.fs photo.file_path = true) (htr : cfg.use_trash = true) :
    delete_photo cfg st i e = delTrashBranch cfg st i photo e := by
  simp only [delete_photo, hph, hfp, if_true, htr]

theorem delete_photo_stack_le (cfg : Config) (st : State) (i : Nat) (e : DelEnv)
    (h : st.deleted_photos.length ≤ cfg.undo_delete_limit) :
    (delete_photo cfg st i e).2.deleted_photos.length ≤ cfg.undo_delete_limit := by
  cases hph : st.photos[i]? with
  | none => simp only [delete_photo, hph]; exact h
  | some photo =>
    simp only [delete_photo, hph]
    cases hfp : FS.pexists st.fs photo.file_path with
    | false =>
      simp only [hfp, Bool.false_eq_true, if_false, delFinish]
      exact h
    | true =>
      simp only [hfp, if_true]
      cases htr : cfg.use_trash with
      | false =>
        simp only [htr, Bool.false_eq_true, if_false]
        cases hu : e.unlink_exc with
        | some m => simp only [hu]; exact h
        | none => simp only [hu, delFinish]; exact h
      | true =>
        simp only [htr, if_true]
        by_cases hlim : st.deleted_photos.length < cfg.undo_delete_limit
        · rw [delTrashBranch_no_overflow cfg st i photo e hlim]
          simp only [delFinish, List.length_append, List.length_cons, List.length_nil]
          omega
        · have hge : cfg.undo_delete_limit ≤ st.deleted_photos.length := by omega
          obtain ⟨oldest, rest, hdp, heq⟩ := delTrashBranch_overflow cfg st i photo e hge
          rw [heq]
          have hlen := congrArg List.length hdp
          simp only [List.length_append, List.length_cons, List.length_nil] at hlen
          simp only [delFinish]
          omega

theorem runDeletes_stack_le (cfg : Config) (ops : List (Nat × DelEnv)) (st : State)
    (h : st.deleted_photos.length ≤ cfg.undo_delete_limit) :
    (runDeletes cfg st ops).deleted_photos.length ≤ cfg.undo_delete_limit := by
  induction ops generalizing st with
  | nil => exact h
  | cons op rest ih =>
    obtain ⟨i, e⟩ := op
    exact ih _ (delete_photo_stack_le cfg st i e h)

theorem undo_delete_stack_len (st : State) (e : UndoEnv) :
    (undo_delete st e).2.deleted_photos.length = st.deleted_photos.length - 1 := by
  cases hlast : st.deleted_photos.getLast? with
  | none =>
    have hdp : st.deleted_photos = [] := by
      cases hd : st.deleted_photos with
      | nil => rfl
      | cons a l => rw [hd] at hlast; simp at hlast
    simp [undo_delete, hlast, hdp]
  | some ent =>
    simp only [undo_delete, hlast]
    cases hex : FS.pexists st.fs ent.trash_path with
    | false => simp [hex, List.length_dropLast]
    | true =>
      simp only [hex, if_true]
      cases hro : e.restore_exc with
      | some m => simp [hro, List.length_dropLast]
      | none => simp [hro, List.length_dropLast]

theorem runUndos_stack_len (envs : List UndoEnv) (st : State) :
    (runUndos st envs).deleted_photos.length = st.deleted_photos.length - envs.length := by
  induction envs generalizing st with
  | nil => simp [runUndos]
  | cons e rest ih =>
    simp only [runUndos]
    rw [ih, undo_delete_stack_len]
    simp only [List.length_cons]
    omega

theorem undo_delete_empty (st : State) (e : UndoEnv) (h : st.deleted_photos = []) :
    (undo_delete st e).1 = .error "No deletions to undo" := by
  simp [undo_delete, h]

/-- Claim C6: (a) across any sequence of deletes, the undo stack never
exceeds the configured limit; (b) a delete that pushes an entry while
the stack is at or above the limit evicts the oldest entry, whose
trashed file is then absent from the disk (permanently purged); (c)
after the stack is within the limit, `undo_delete` called `limit`
times empties the stack and the `limit + 1`-st call fails with
`NothingToUndo`. -/
theorem C6_undo_stack_bounded (cfg : Config) :
    (∀ (st : State) (ops : List (Nat × DelEnv)),
      st.deleted_photos.length ≤ cfg.undo_delete_limit →
      (runDeletes cfg st ops).deleted_photos.length ≤ cfg.undo_delete_limit) ∧
    (∀ (st : State) (i : Nat) (e : DelEnv) (photo : PhotoRecord),
      st.photos[i]? = some photo →
      FS.pexists st.fs photo.file_path = true →
      cfg.use_trash = true →
      cfg.undo_delete_limit ≤ st.deleted_photos.length →
      ∃ oldest rest,
        st.deleted_photos ++
          [(⟨photo.file_path,
            trashPathStr (move_to_trash st.fs st.trash_folder photo.file_path e.trash_move_exc).1,
            photo, i⟩ : UndoEntry)] = oldest :: rest ∧
        (delete_photo cfg st i e).2.deleted_photos = rest ∧
        FS.pexists (delete_photo cfg st i e).2.fs oldest.trash_path = false) ∧
    (∀ (st : State) (envs : List UndoEnv) (e : UndoEnv),
      st.deleted_photos.length ≤ cfg.undo_delete_limit →
      envs.length = cfg.undo_delete_limit →
      (undo_delete (runUndos st envs) e).1 = .error "No deletions to undo") := by
  refine ⟨fun st ops h => runDeletes_stack_le cfg ops st h, ?_, ?_⟩
  · intro st i e photo hph hfp htr hlim
    obtain ⟨oldest, rest, hdp, heq⟩ := delTrashBranch_overflow cfg st i photo e hlim
    rw [delete_photo_trash_eq cfg st i e photo hph hfp htr, heq]
    refine ⟨oldest, rest, hdp, rfl, ?_⟩
    exact FS.pexists_purge _ _
  · intro st envs e hle hlen
    apply undo_delete_empty
    have hrun := runUndos_stack_len envs st
    rw [hlen] at hrun
    have h0 : (runUndos st envs).deleted_photos.length = 0 := by omega
    exact List.length_eq_zero.mp h0

/-- Witness for C6 with the limit-zero configuration. -/
theorem C6_witness :
    (runDeletes cfgZero freshState []).deleted_photos.length ≤ cfgZero.undo_delete_limit ∧
    (∃ oldest rest,
      demoState.deleted_photos ++
        [(⟨demoRecord.file_path,
          trashPathStr (move_to_trash demoState.fs demoState.trash_folder demoRecord.file_path
            okDel.trash_move_exc).1,
          demoRecord, 0⟩ : UndoEntry)] = oldest :: rest ∧
      (delete_photo cfgZero demoState 0 okDel).2.deleted_photos = rest ∧
      FS.pexists (delete_photo cfgZero demoState 0 okDel).2.fs oldest.trash_path = false) ∧
    (undo_delete (runUndos freshState []) okUndo).1 = .error "No deletions to undo" :=
  ⟨(C6_undo_stack_bounded cfgZero).1 freshState [] (by decide),
   (C6_undo_stack_bounded cfgZero).2.1 demoState 0 okDel demoRecord (by decide) (by decide)
     rfl (by decide),
   (C6_undo_stack_bounded cfgZero).2.2 freshState [] okUndo (by decide) (by decide)⟩

/-! ### Claim C5 -/

/-- Counterexample to claim C5: with `undo_delete_limit = 0` (and trash
enabled, the deleted file on disk), the undo entry pushed by
`delete_photo` is immediately evicted and its trashed file purged, so
the immediately following `undo_delete` fails with `NothingToUndo` and
the photo sequence is not restored. -/
theorem C5_counterexample :
    (undo_delete (delete_photo cfgZero demoState 0 okDel).2 okUndo).1 =
      .error "No deletions to undo" ∧
    (undo_delete (delete_photo cfgZero demoState 0 okDel).2 okUndo).2.photos ≠
      demoState.photos := by
  decide

theorem undo_delete_success_parts (st : State) (e : UndoEnv) (ent : UndoEntry)
    (hlast : st.deleted_photos.getLast? = some ent)
    (hex : FS.pexists st.fs ent.trash_path = true)
    (hro : e.restore_exc = none) :
    (undo_delete st e).1 = .success ent.data ∧
    (undo_delete st e).2.photos = pyInsert st.photos ent.index ent.data ∧
    (undo_delete st e).2.fs = FS.move st.fs ent.trash_path ent.original_path ∧
    (undo_delete st e).2.deleted_photos = st.deleted_photos.dropLast := by
  simp only [undo_delete, hlast, hex, if_true, hro]
  exact ⟨trivial, trivial, trivial, trivial⟩

/-- Claim C5 as amended: provided the undo stack is strictly below the
configured limit when the delete happens (so the fresh undo entry is
not evicted), `delete_photo i` followed immediately by `undo_delete`
returns the photo sequence to its pre-delete contents (the record back
at index `i`), with the original `file_path` existing on disk again and
the trash no longer containing the corresponding trashed file. -/
theorem C5_delete_undo_roundtrip (cfg : Config) (st : State) (i : Nat)
    (e1 : DelEnv) (e2 : UndoEnv) (photo : PhotoRecord)
    (hph : st.photos[i]? = some photo)
    (htr : cfg.use_trash = true)
    (hfp : FS.pexists st.fs photo.file_path = true)
    (hlim : st.deleted_photos.length < cfg.undo_delete_limit)
    (he1 : e1.trash_move_exc = none)
    (he2 : e2.restore_exc = none) :
    (undo_delete (delete_photo cfg st i e1).2 e2).1 = .success photo ∧
    (undo_delete (delete_photo cfg st i e1).2 e2).2.photos = st.photos ∧
    FS.pexists (undo_delete (delete_photo cfg st i e1).2 e2).2.fs photo.file_path = true ∧
    (∀ ent, (delete_photo cfg st i e1).2.deleted_photos.getLast? = some ent →
      FS.pexists (undo_delete (delete_photo cfg st i e1).2 e2).2.fs ent.trash_path = false) := by
  obtain ⟨v, hv⟩ := FS.pexists_some st.fs photo.file_path hfp
  have hfree : FS.pexists st.fs (trashTarget st.fs st.trash_folder photo.file_path) = false :=
    trashTarget_free st.fs st.trash_folder photo.file_path
  have htne : trashTarget st.fs st.trash_folder photo.file_path ≠ photo.file_path := by
    intro hcon
    rw [hcon, hfp] at hfree
    cases hfree
  have hmv : move_to_trash st.fs st.trash_folder photo.file_path e1.trash_move_exc =
      (some (trashTarget st.fs st.trash_folder photo.file_path),
       FS.move st.fs photo.file_path (trashTarget st.fs st.trash_folder photo.file_path)) := by
    rw [he1]
    rfl
  have hmove : FS.move st.fs photo.file_path (trashTarget st.fs st.trash_folder photo.file_path) =
      FS.write (FS.remove st.fs photo.file_path)
        (trashTarget st.fs st.trash_folder photo.file_path) v :=
    FS.move_eq_of_lookup st.fs _ _ v hv
  have hD : delete_photo cfg st i e1 =
      (.success photo,
       { st with
         fs := FS.write (FS.remove st.fs photo.file_path)
                 (trashTarget st.fs st.trash_folder photo.file_path) v,
         deleted_photos := st.deleted_photos ++
           [⟨photo.file_path, trashTarget st.fs st.trash_folder photo.file_path, photo, i⟩],
         photos := st.photos.eraseIdx i,
         excel := if e1.rewrite_exc = none then st.photos.eraseIdx i else st.excel }) := by
    rw [delete_photo_trash_eq cfg st i e1 photo hph hfp htr,
        delTrashBranch_no_overflow cfg st i photo e1 hlim, hmv]
    rw [hmove]
    simp only [delFinish, trashPathStr]
  have hD2 : (delete_photo cfg st i e1).2 =
      { st with
        fs := FS.write (FS.remove st.fs photo.file_path)
                (trashTarget st.fs st.trash_folder photo.file_path) v,
        deleted_photos := st.deleted_photos ++
          [⟨photo.file_path, trashTarget st.fs st.trash_folder photo.file_path, photo, i⟩],
        photos := st.photos.eraseIdx i,
        excel := if e1.rewrite_exc = none then st.photos.eraseIdx i else st.excel } := by
    rw [hD]
  have hdp1 : (delete_photo cfg st i e1).2.deleted_photos =
      st.deleted_photos ++
        [⟨photo.file_path, trashTarget st.fs st.trash_folder photo.file_path, photo, i⟩] := by
    rw [hD2]
  have hfs1 : (delete_photo cfg st i e1).2.fs =
      FS.write (FS.remove st.fs photo.file_path)
        (trashTarget st.fs st.trash_folder photo.file_path) v := by
    rw [hD2]
  have hpx1 : (delete_photo cfg st i e1).2.photos = st.photos.eraseIdx i := by
    rw [hD2]
  have hlast : (delete_photo cfg st i e1).2.deleted_photos.getLast? =
      some ⟨photo.file_path, trashTarget st.fs st.trash_folder photo.file_path, photo, i⟩ := by
    rw [hdp1]
    exact List.getLast?_concat _
  have hex : FS.pexists (delete_photo cfg st i e1).2.fs
      ((⟨photo.file_path, trashTarget st.fs st.trash_folder photo.file_path, photo,
        i⟩ : UndoEntry).trash_path) = true := by
    rw [hfs1]
    exact FS.pexists_write_self _ _ _
  obtain ⟨hu1, hu2, hu3, _⟩ :=
    undo_delete_success_parts (delete_photo cfg st i e1).2 e2
      ⟨photo.file_path, trashTarget st.fs st.trash_folder photo.file_path, photo, i⟩
      hlast hex he2
  dsimp only at hu1 hu2 hu3
  rw [hpx1] at hu2
  rw [hfs1] at hu3
  rw [FS.move_eq_of_lookup _ _ _ v (FS.lookup_write_self _ _ _)] at hu3
  refine ⟨hu1, ?_, ?_, ?_⟩
  · rw [hu2]
    exact pyInsert_eraseIdx st.photos i photo hph
  · rw [hu3]
    exact FS.pexists_write_self _ _ _
  · intro ent hent
    rw [hlast] at hent
    injection hent with hent
    subst hent
    dsimp only
    rw [hu3]
    rw [FS.pexists_write_other _ _ _ _ htne]
    exact FS.pexists_remove_self _ _

/-- Witness for C5 (amended) on the concrete one-photo session with the
default limit of 10. -/
theorem C5_witness :
    (undo_delete (delete_photo (cfgWith .ask) demoState 0 okDel).2 okUndo).1 =
      .success demoRecord ∧
    (undo_delete (delete_photo (cfgWith .ask) demoState 0 okDel).2 okUndo).2.photos =
      demoState.photos ∧
    FS.pexists (undo_delete (delete_photo (cfgWith .ask) demoState 0 okDel).2 okUndo).2.fs
      demoRecord.file_path = true ∧
    (∀ ent, (delete_photo (cfgWith .ask) demoState 0 okDel).2.deleted_photos.getLast? =
        some ent →
      FS.pexists (undo_delete (delete_photo (cfgWith .ask) demoState 0 okDel).2 okUndo).2.fs
        ent.trash_path = false) :=
  C5_delete_undo_roundtrip (cfgWith .ask) demoState 0 okDel okUndo demoRecord
    (by decide) rfl (by decide) (by decide) rfl rfl

end PhotoLedger
